import Mathlib

/-!
Verification of the OAuth2 PKCE example repository.

Shallow embedding, translated from the Go source:
  * `internal/auth` PKCE engine: `GenerateCodeVerifier`, `CreateCodeChallenge`,
    `VerifyCodeChallenge` (with a full SHA-256 and Go standard base64 model).
  * `internal/auth` token processing: `ParseIDToken`, `ValidateIDToken`,
    `base64URLDecode` (with a model of the subset of encoding/json that the
    claims payload exercises).
  * `internal/server/callback.go`: the callback server handler and its two
    capacity-one channels, `NewCallbackServer`, `Stop`.

Go strings are modelled as `List Char` where each character stands for one
byte (all inputs exercised here are ASCII, where Go byte length and character
count coincide). Go `byte` is `Fin 256`. 32-bit words inside SHA-256 are `Nat`
reduced modulo `2 ^ 32` at every operation.
-/

deriving instance DecidableEq for Except

namespace OAuth2Spec

/-- A Go byte. -/
abbrev Byte := Fin 256

/-- A Go string, viewed as its byte sequence (one `Char` per byte). -/
abbrev GoStr := List Char

/-- Truncate a natural number to a byte, as Go byte conversion does. -/
def byte (n : Nat) : Byte := ⟨n % 256, Nat.mod_lt n (by decide)⟩

/-- `[]byte(s)` for the ASCII strings this development manipulates. -/
def strBytes (s : GoStr) : List Byte := s.map (fun c => byte c.toNat)

/-! ## Base64: Go `encoding/base64` StdEncoding, encode side -/

/-- The standard base64 alphabet, in index order. -/
def stdAlphabet : List Char :=
  ("ABCDEFGHIJKLMNOPQRSTUVWXYZabcdefghijklmnopqrstuvwxyz0123456789+/" : String).data

/-- Character for a six-bit value (out-of-range values cannot arise from
byte arithmetic; the default keeps the function total). -/
def sextetChar (k : Nat) : Char := stdAlphabet.getD k 'A'

/-- Go `base64.StdEncoding.EncodeToString`, producing the padded character
sequence group by group: three input bytes become four alphabet characters,
a two-byte tail becomes three characters and `=`, a one-byte tail becomes
two characters and `==`. -/
def b64Encode : List Byte → List Char
  | b1 :: b2 :: b3 :: rest =>
      sextetChar (b1.val / 4) ::
      sextetChar (b1.val % 4 * 16 + b2.val / 16) ::
      sextetChar (b2.val % 16 * 4 + b3.val / 64) ::
      sextetChar (b3.val % 64) :: b64Encode rest
  | [b1, b2] =>
      [sextetChar (b1.val / 4), sextetChar (b1.val % 4 * 16 + b2.val / 16),
       sextetChar (b2.val % 16 * 4), '=']
  | [b1] =>
      [sextetChar (b1.val / 4), sextetChar (b1.val % 4 * 16), '=', '=']
  | [] => []

/-- The two `strings.ReplaceAll` calls shared by verifier and challenge
generation: `+` becomes `-` and `/` becomes `_`. -/
def urlSafeChar (c : Char) : Char :=
  if c = '+' then '-' else if c = '/' then '_' else c

/-- `strings.ReplaceAll(s, "=", "")`: drop every padding character. -/
def stripEq (s : List Char) : List Char := s.filter (fun c => c ≠ '=')

/-- The shared encoding tail of `GenerateCodeVerifier` and
`CreateCodeChallenge`: standard base64, then the URL-safe character
replacements, then removal of padding. -/
def b64URLEncodeNoPad (bs : List Byte) : GoStr :=
  stripEq ((b64Encode bs).map urlSafeChar)

/-! ## SHA-256 (crypto/sha256), on 32-bit words carried as `Nat % 2^32` -/

/-- Addition modulo `2 ^ 32`. -/
def add32 (a b : Nat) : Nat := (a + b) % 4294967296

/-- Right rotation of a 32-bit word by `n` places. -/
def rotr32 (n x : Nat) : Nat := (x / 2 ^ n + x % 2 ^ n * 2 ^ (32 - n)) % 4294967296

/-- Logical right shift of a 32-bit word. -/
def shr32 (n x : Nat) : Nat := x / 2 ^ n

/-- Bitwise complement within 32 bits. -/
def not32 (x : Nat) : Nat := Nat.xor x 4294967295

/-- Message-schedule sigma 0. -/
def ssig0 (x : Nat) : Nat := Nat.xor (Nat.xor (rotr32 7 x) (rotr32 18 x)) (shr32 3 x)

/-- Message-schedule sigma 1. -/
def ssig1 (x : Nat) : Nat := Nat.xor (Nat.xor (rotr32 17 x) (rotr32 19 x)) (shr32 10 x)

/-- Compression big sigma 0. -/
def bsig0 (x : Nat) : Nat := Nat.xor (Nat.xor (rotr32 2 x) (rotr32 13 x)) (rotr32 22 x)

/-- Compression big sigma 1. -/
def bsig1 (x : Nat) : Nat := Nat.xor (Nat.xor (rotr32 6 x) (rotr32 11 x)) (rotr32 25 x)

/-- The choice function of the compression round. -/
def ch32 (e f g : Nat) : Nat := Nat.xor (Nat.land e f) (Nat.land (not32 e) g)

/-- The majority function of the compression round. -/
def maj32 (a b c : Nat) : Nat :=
  Nat.xor (Nat.xor (Nat.land a b) (Nat.land a c)) (Nat.land b c)

/-- The 64 SHA-256 round constants. -/
def shaK : List Nat :=
  [1116352408, 1899447441, 3049323471, 3921009573, 961987163, 1508970993,
   2453635748, 2870763221, 3624381080, 310598401, 607225278, 1426881987,
   1925078388, 2162078206, 2614888103, 3248222580, 3835390401, 4022224774,
   264347078, 604807628, 770255983, 1249150122, 1555081692, 1996064986,
   2554220882, 2821834349, 2952996808, 3210313671, 3336571891, 3584528711,
   113926993, 338241895, 666307205, 773529912, 1294757372, 1396182291,
   1695183700, 1986661051, 2177026350, 2456956037, 2730485921, 2820302411,
   3259730800, 3345764771, 3516065817, 3600352804, 4094571909, 275423344,
   430227734, 506948616, 659060556, 883997877, 958139571, 1322822218,
   1537002063, 1747873779, 1955562222, 2024104815, 2227730452, 2361852424,
   2428436474, 2756734187, 3204031479, 3329325298]

/-- The SHA-256 hash state: eight 32-bit words. -/
structure Hash8 where
  a : Nat
  b : Nat
  c : Nat
  d : Nat
  e : Nat
  f : Nat
  g : Nat
  h : Nat
deriving Repr, DecidableEq

/-- The SHA-256 initial hash value. -/
def shaH0 : Hash8 :=
  ⟨1779033703, 3144134277, 1013904242, 2773480762,
   1359893119, 2600822924, 528734635, 1541459225⟩

/-- Big-endian 32-bit words from a byte sequence (a trailing fragment shorter
than four bytes is dropped; padded blocks never produce one). -/
def bytesToWords : List Byte → List Nat
  | b1 :: b2 :: b3 :: b4 :: rest =>
      (b1.val * 16777216 + b2.val * 65536 + b3.val * 256 + b4.val) :: bytesToWords rest
  | _ => []

/-- Extend the schedule: each step prepends one new word computed from the
words 2, 7, 15 and 16 positions back (the accumulator is kept reversed, most
recent word first). -/
def extendWords : Nat → List Nat → List Nat
  | 0, acc => acc
  | n + 1, acc =>
      extendWords n
        (add32 (add32 (ssig1 (acc.getD 1 0)) (acc.getD 6 0))
               (add32 (ssig0 (acc.getD 14 0)) (acc.getD 15 0)) :: acc)

/-- The 64-word message schedule of one block. -/
def messageSchedule (block : List Byte) : List Nat :=
  (extendWords 48 (bytesToWords block).reverse).reverse

/-- One compression round. -/
def shaRound (st : Hash8) (wk : Nat × Nat) : Hash8 :=
  let t1 := add32 st.h (add32 (bsig1 st.e) (add32 (ch32 st.e st.f st.g) (add32 wk.1 wk.2)))
  let t2 := add32 (bsig0 st.a) (maj32 st.a st.b st.c)
  ⟨add32 t1 t2, st.a, st.b, st.c, add32 st.d t1, st.e, st.f, st.g⟩

/-- Compress one 64-byte block into the running hash. -/
def shaCompress (hv : Hash8) (block : List Byte) : Hash8 :=
  let st := (List.zip (messageSchedule block) shaK).foldl shaRound hv
  ⟨add32 hv.a st.a, add32 hv.b st.b, add32 hv.c st.c, add32 hv.d st.d,
   add32 hv.e st.e, add32 hv.f st.f, add32 hv.g st.g, add32 hv.h st.h⟩

/-- SHA-256 padding: `0x80`, zeros to 56 mod 64, then the bit length as eight
big-endian bytes. -/
def shaPad (msg : List Byte) : List Byte :=
  let len := msg.length
  let zeros := (120 - (len + 1) % 64) % 64
  let bits := len * 8
  msg ++ byte 128 :: List.replicate zeros (byte 0) ++
    [byte (bits / 2 ^ 56), byte (bits / 2 ^ 48), byte (bits / 2 ^ 40),
     byte (bits / 2 ^ 32), byte (bits / 2 ^ 24), byte (bits / 2 ^ 16),
     byte (bits / 2 ^ 8), byte bits]

/-- Split a padded message into 64-byte blocks. -/
def toBlocks (l : List Byte) : List (List Byte) :=
  if h : l = [] then []
  else
    have : (l.drop 64).length < l.length := by
      cases l with
      | nil => exact absurd rfl h
      | cons x xs => simp [List.length_drop]; omega
    l.take 64 :: toBlocks (l.drop 64)
termination_by l.length

/-- The four big-endian bytes of a 32-bit word. -/
def wordBytes (w : Nat) : List Byte :=
  [byte (w / 16777216), byte (w / 65536), byte (w / 256), byte w]

/-- The 32-byte digest of a final hash state. -/
def digestOfHash (hv : Hash8) : List Byte :=
  wordBytes hv.a ++ wordBytes hv.b ++ wordBytes hv.c ++ wordBytes hv.d ++
  wordBytes hv.e ++ wordBytes hv.f ++ wordBytes hv.g ++ wordBytes hv.h

/-- SHA-256 of a byte sequence. -/
def sha256 (msg : List Byte) : List Byte :=
  digestOfHash ((toBlocks (shaPad msg)).foldl shaCompress shaH0)

/-! ## PKCE engine (internal/auth, part of the `auth` package) -/

/-- A PKCE code verifier (Go `PKCECodeVerifier`, a string type). -/
abbrev PKCECodeVerifier := GoStr

/-- A PKCE code challenge (Go `PKCECodeChallenge`, a string type). -/
abbrev PKCECodeChallenge := GoStr

/-- `GenerateCodeVerifier`, with the `crypto/rand` draw of 32 bytes made an
explicit argument: on a successful draw it base64-encodes the bytes, makes
them URL-safe and strips padding; it fails exactly when the entropy source
fails. -/
def GenerateCodeVerifier (randRead : Except ε (List Byte)) :
    Except ε PKCECodeVerifier :=
  match randRead with
  | .error e => .error e
  | .ok bs => .ok (b64URLEncodeNoPad bs)

/-- `(PKCECodeVerifier).CreateCodeChallenge`: SHA-256 of the verifier text,
encoded with the same URL-safe unpadded scheme. -/
def CreateCodeChallenge (v : PKCECodeVerifier) : PKCECodeChallenge :=
  b64URLEncodeNoPad (sha256 (strBytes v))

/-- `VerifyCodeChallenge`: recompute and compare. -/
def VerifyCodeChallenge (verifier : PKCECodeVerifier) (challenge : PKCECodeChallenge) : Bool :=
  CreateCodeChallenge verifier == challenge

/-! ## Base64 decode: Go `base64.StdEncoding.DecodeString` -/

/-- Decode-side errors: `invalidLength` is the explicit error of the Go
`base64URLDecode` helper for a length of 1 mod 4; `corruptInput` stands for
the `CorruptInputError` family of the standard decoder. -/
inductive DecErr
  | invalidLength
  | corruptInput
deriving Repr, DecidableEq

/-- Index of a character in the standard alphabet, or an error. -/
def sx (c : Char) : Except DecErr Nat :=
  let i := stdAlphabet.indexOf c
  if i < 64 then .ok i else .error .corruptInput

/-- Go standard base64 decoding over four-character groups: `=` may close the
final group only (one for a two-byte tail, two for a one-byte tail); any
character outside the alphabet, misplaced padding, or a length that is not a
multiple of four is corrupt input. -/
def b64DecodeGroups : List Char → Except DecErr (List Byte)
  | [] => .ok []
  | [c1, c2, '=', '='] => do
      let s1 ← sx c1
      let s2 ← sx c2
      .ok [byte (s1 * 4 + s2 / 16)]
  | [c1, c2, c3, '='] => do
      let s1 ← sx c1
      let s2 ← sx c2
      let s3 ← sx c3
      .ok [byte (s1 * 4 + s2 / 16), byte (s2 % 16 * 16 + s3 / 4)]
  | c1 :: c2 :: c3 :: c4 :: rest => do
      let s1 ← sx c1
      let s2 ← sx c2
      let s3 ← sx c3
      let s4 ← sx c4
      let bs ← b64DecodeGroups rest
      .ok (byte (s1 * 4 + s2 / 16) :: byte (s2 % 16 * 16 + s3 / 4) ::
           byte (s3 % 4 * 64 + s4) :: bs)
  | _ => .error .corruptInput

/-- The reverse URL-safe replacements of `base64URLDecode`: `-` becomes `+`
and `_` becomes `/`. -/
def stdCharOfURL (c : Char) : Char :=
  if c = '-' then '+' else if c = '_' then '/' else c

/-- `base64URLDecode` from the auth package: restore padding according to the
length modulo 4 (1 is an explicit invalid-length error, issued before any
decoding), replace the URL-safe characters, then standard-decode. -/
def base64URLDecode (s : GoStr) : Except DecErr (List Byte) :=
  match s.length % 4 with
  | 0 => b64DecodeGroups (s.map stdCharOfURL)
  | 2 => b64DecodeGroups ((s ++ ['=', '=']).map stdCharOfURL)
  | 3 => b64DecodeGroups ((s ++ ['=']).map stdCharOfURL)
  | _ => .error .invalidLength

/-! ## JSON (the subset of encoding/json exercised by claim payloads)

Modelled from the Go standard library as used by `ParseIDToken`: values are
null, booleans, integers, strings with the single-character escapes, arrays
and objects. Not modelled (and so rejected): `\u` escapes, fractional and
exponent number forms — no claim exercises them. -/

/-- A JSON value. -/
inductive Json
  | jnull
  | jbool (b : Bool)
  | jnum (n : Int)
  | jstr (s : GoStr)
  | jarr (xs : List Json)
  | jobj (kvs : List (GoStr × Json))
deriving Repr

/-- JSON insignificant whitespace. -/
def isJsonWs (c : Char) : Bool :=
  c = ' ' ∨ c = '\t' ∨ c = '\n' ∨ c = '\r'

/-- Resolve a single-character string escape. -/
def unescape (c : Char) : Except Unit Char :=
  if c = '"' ∨ c = '\\' ∨ c = '/' then .ok c
  else if c = 'n' then .ok '\n'
  else if c = 't' then .ok '\t'
  else if c = 'r' then .ok '\r'
  else if c = 'b' then .ok (Char.ofNat 8)
  else if c = 'f' then .ok (Char.ofNat 12)
  else .error ()

/-- Consume the remainder of a JSON string after the opening quote. -/
def parseJsonStringRest : GoStr → Except Unit (GoStr × GoStr)
  | [] => .error ()
  | '"' :: r => .ok ([], r)
  | '\\' :: c :: r => do
      let e ← unescape c
      let (s, rest) ← parseJsonStringRest r
      .ok (e :: s, rest)
  | c :: r => do
      let (s, rest) ← parseJsonStringRest r
      .ok (c :: s, rest)

/-- Numeric value of a decimal digit character. -/
def digitVal (c : Char) : Nat := c.toNat - 48

/-- Consume a nonempty run of decimal digits. -/
def parseDigits (s : GoStr) : Except Unit (Nat × GoStr) :=
  let ds := s.takeWhile Char.isDigit
  if ds = [] then .error ()
  else .ok (ds.foldl (fun a c => a * 10 + digitVal c) 0, s.dropWhile Char.isDigit)

/-- Consume an integer JSON number. -/
def parseJsonNumber (s : GoStr) : Except Unit (Json × GoStr) :=
  match s with
  | '-' :: r => do
      let (n, rest) ← parseDigits r
      .ok (.jnum (-(n : Int)), rest)
  | _ => do
      let (n, rest) ← parseDigits s
      .ok (.jnum (n : Int), rest)

mutual

/-- Consume one JSON value (fuel-indexed recursive descent). -/
def parseJsonValue : Nat → GoStr → Except Unit (Json × GoStr)
  | 0, _ => .error ()
  | fuel + 1, s =>
    match s.dropWhile isJsonWs with
    | 'n' :: 'u' :: 'l' :: 'l' :: r => .ok (.jnull, r)
    | 't' :: 'r' :: 'u' :: 'e' :: r => .ok (.jbool true, r)
    | 'f' :: 'a' :: 'l' :: 's' :: 'e' :: r => .ok (.jbool false, r)
    | '"' :: r => do
        let (s, rest) ← parseJsonStringRest r
        .ok (.jstr s, rest)
    | '[' :: r =>
        (match r.dropWhile isJsonWs with
         | ']' :: r2 => .ok (.jarr [], r2)
         | _ => do
             let (xs, rest) ← parseJsonArrayItems fuel r
             .ok (.jarr xs, rest))
    | '{' :: r =>
        (match r.dropWhile isJsonWs with
         | '}' :: r2 => .ok (.jobj [], r2)
         | _ => do
             let (kvs, rest) ← parseJsonObjItems fuel r
             .ok (.jobj kvs, rest))
    | r => parseJsonNumber r

/-- Consume the comma-separated items of a nonempty array, including the
closing bracket. -/
def parseJsonArrayItems : Nat → GoStr → Except Unit (List Json × GoStr)
  | 0, _ => .error ()
  | fuel + 1, s => do
      let (v, rest) ← parseJsonValue fuel s
      match rest.dropWhile isJsonWs with
      | ',' :: r2 => do
          let (vs, rest2) ← parseJsonArrayItems fuel r2
          .ok (v :: vs, rest2)
      | ']' :: r2 => .ok ([v], r2)
      | _ => .error ()

/-- Consume the members of a nonempty object, including the closing brace. -/
def parseJsonObjItems : Nat → GoStr → Except Unit (List (GoStr × Json) × GoStr)
  | 0, _ => .error ()
  | fuel + 1, s =>
    match s.dropWhile isJsonWs with
    | '"' :: r => do
        let (k, rest) ← parseJsonStringRest r
        match rest.dropWhile isJsonWs with
        | ':' :: r2 => do
            let (v, rest2) ← parseJsonValue fuel r2
            (match rest2.dropWhile isJsonWs with
             | ',' :: r3 => do
                 let (kvs, rest3) ← parseJsonObjItems fuel r3
                 .ok ((k, v) :: kvs, rest3)
             | '}' :: r3 => .ok ([(k, v)], r3)
             | _ => .error ())
        | _ => .error ()
    | _ => .error ()

end

/-! ## ID token claims (internal/auth token handling) -/

/-- The claims carried in an ID token (Go `IDTokenClaims`). -/
structure IDTokenClaims where
  Issuer : GoStr := []
  Subject : GoStr := []
  Audience : GoStr := []
  Expiration : Int := 0
  IssuedAt : Int := 0
  Name : GoStr := []
  Email : GoStr := []
  EmailVerified : Bool := false
  Picture : GoStr := []
  GivenName : GoStr := []
  FamilyName : GoStr := []
  Locale : GoStr := []
  rawHeader : GoStr := []
  rawPayload : GoStr := []
  rawSignature : GoStr := []
deriving Repr, DecidableEq

/-- Key match as `encoding/json` performs it (case-insensitive on the tag). -/
def keyIs (k : GoStr) (tag : String) : Bool :=
  k.map Char.toLower == tag.data

/-- Assign a JSON value to a string field: null leaves the field untouched,
a string sets it, any other value is a type error. -/
def withStr (v : Json) (c : IDTokenClaims) (upd : GoStr → IDTokenClaims) :
    Except Unit IDTokenClaims :=
  match v with
  | .jnull => .ok c
  | .jstr s => .ok (upd s)
  | _ => .error ()

/-- Assign a JSON value to an int64 field. -/
def withInt (v : Json) (c : IDTokenClaims) (upd : Int → IDTokenClaims) :
    Except Unit IDTokenClaims :=
  match v with
  | .jnull => .ok c
  | .jnum n => .ok (upd n)
  | _ => .error ()

/-- Assign a JSON value to a bool field. -/
def withBool (v : Json) (c : IDTokenClaims) (upd : Bool → IDTokenClaims) :
    Except Unit IDTokenClaims :=
  match v with
  | .jnull => .ok c
  | .jbool b => .ok (upd b)
  | _ => .error ()

/-- Apply one object member to the claims under construction; keys matching
no tag are ignored, as `encoding/json` ignores unknown fields. -/
def setClaim (c : IDTokenClaims) (k : GoStr) (v : Json) : Except Unit IDTokenClaims :=
  if keyIs k ("iss") then withStr v c (fun s => { c with Issuer := s })
  else if keyIs k ("sub") then withStr v c (fun s => { c with Subject := s })
  else if keyIs k ("aud") then withStr v c (fun s => { c with Audience := s })
  else if keyIs k ("exp") then withInt v c (fun n => { c with Expiration := n })
  else if keyIs k ("iat") then withInt v c (fun n => { c with IssuedAt := n })
  else if keyIs k ("name") then withStr v c (fun s => { c with Name := s })
  else if keyIs k ("email") then withStr v c (fun s => { c with Email := s })
  else if keyIs k ("email_verified") then withBool v c (fun b => { c with EmailVerified := b })
  else if keyIs k ("picture") then withStr v c (fun s => { c with Picture := s })
  else if keyIs k ("given_name") then withStr v c (fun s => { c with GivenName := s })
  else if keyIs k ("family_name") then withStr v c (fun s => { c with FamilyName := s })
  else if keyIs k ("locale") then withStr v c (fun s => { c with Locale := s })
  else .ok c

/-- `json.Unmarshal(payload, &claims)`: parse one value covering the whole
input, require a top-level object, and fold its members into the claims. -/
def jsonUnmarshalClaims (s : GoStr) : Except Unit IDTokenClaims := do
  let (v, rest) ← parseJsonValue (s.length + 1) s
  if rest.dropWhile isJsonWs ≠ [] then .error ()
  else
    match v with
    | .jobj kvs => kvs.foldlM (fun c kv => setClaim c kv.1 kv.2) {}
    | _ => .error ()

/-- Go `strings.Split(s, sep)` for a single-character separator. -/
def goSplit (sep : Char) : List Char → List (List Char)
  | [] => [[]]
  | c :: cs =>
      let r := goSplit sep cs
      if c = sep then [] :: r
      else (c :: r.headD []) :: r.tail

/-- Errors of `ParseIDToken`: wrong part count (with the observed count),
payload decode failure (with the decode error), or claims parse failure. -/
inductive TokenErr
  | invalidFormat (n : Nat)
  | decodeFailed (e : DecErr)
  | parseFailed
deriving Repr, DecidableEq

/-- `ParseIDToken`: split on dots, require exactly three parts, decode the
payload with `base64URLDecode`, unmarshal the claims, and retain the three
raw parts. -/
def ParseIDToken (idToken : GoStr) : Except TokenErr IDTokenClaims :=
  let parts := goSplit '.' idToken
  if parts.length ≠ 3 then .error (.invalidFormat parts.length)
  else
    let rawHeader := parts.getD 0 []
    let rawPayload := parts.getD 1 []
    let rawSignature := parts.getD 2 []
    match base64URLDecode rawPayload with
    | .error e => .error (.decodeFailed e)
    | .ok payload =>
      match jsonUnmarshalClaims (payload.map (fun b => Char.ofNat b.val)) with
      | .error _ => .error .parseFailed
      | .ok c =>
          .ok { c with rawHeader := rawHeader, rawPayload := rawPayload,
                       rawSignature := rawSignature }

/-- The three validation failures of `ValidateIDToken`. -/
inductive ValidateErr
  | expired
  | issuedInFuture
  | audienceMismatch
deriving Repr, DecidableEq

/-- `ValidateIDToken`, with the `time.Now().Unix()` reading an explicit
argument: expiry strictly before now fails first, an issue instant strictly
after now fails second, and with a nonempty expected audience the audience
list (the singleton of the audience claim when nonempty, else empty) must
contain the expected value. -/
def ValidateIDToken (claims : IDTokenClaims) (expectedAudience : GoStr) (now : Int) :
    Except ValidateErr Unit :=
  if claims.Expiration < now then .error .expired
  else if claims.IssuedAt > now then .error .issuedInFuture
  else if expectedAudience ≠ [] then
    let audiences : List GoStr := if claims.Audience ≠ [] then [claims.Audience] else []
    if audiences.contains expectedAudience then .ok () else .error .audienceMismatch
  else .ok ()

/-! ## Callback server (internal/server/callback.go)

The handler is modelled together with the two capacity-one channels it sends
on. Requests are handled sequentially with no concurrent receiver draining
the channels (one admissible interleaving of the Go program): a send on a
channel that already holds its one buffered value blocks the handler
goroutine at that point, so the actions after the send do not happen. The
code branch sends on `codeChan` before writing the HTTP response; the two
error branches call `http.Error` before sending on `errChan`. -/

/-- The error values sent on `errChan` (structure of the `fmt.Errorf` calls). -/
inductive CbErr
  | noCode
  | oauth (msg desc : GoStr)
  | serverErr
deriving Repr, DecidableEq

/-- An outcome handed to the waiting caller: an authorization code or an
error. -/
inductive Outcome
  | code (c : GoStr)
  | err (e : CbErr)
deriving Repr, DecidableEq

/-- The buffered contents of the two channels, each of capacity one. -/
structure Chans where
  codeCh : List GoStr := []
  errCh : List CbErr := []
deriving Repr, DecidableEq

/-- A callback request, reduced to its query parameters. `Get` returns the
first value bound to a key, or the empty string. -/
structure CbRequest where
  query : List (GoStr × GoStr)
deriving Repr, DecidableEq

/-- `r.URL.Query().Get(key)`. -/
def getQ (r : CbRequest) (key : GoStr) : GoStr :=
  ((r.query.find? (fun p => p.1 == key)).map (fun p => p.2)).getD []

/-- The `code` query key. -/
def qCode : GoStr := ("code" : String).data

/-- The `error` query key. -/
def qError : GoStr := ("error" : String).data

/-- The `error_description` query key. -/
def qErrorDesc : GoStr := ("error_description" : String).data

/-- What one run of `handleCallback` did: the HTTP status written (none when
the handler blocked before responding), the outcome it published (none when
nothing was sent), whether it is blocked in a channel send, and the channel
contents it leaves behind. -/
structure RunResult where
  status : Option Nat
  outcome : Option Outcome
  blocked : Bool
  chans : Chans
deriving Repr, DecidableEq

/-- `handleCallback`: an empty `code` responds 400 then sends the generic
no-code error; a nonempty `error` (only reachable with a nonempty `code`)
responds 400 then sends the provider error with its description; otherwise
the code is sent first and the 200 confirmation page is written only after
the send completes. -/
def handleCallback (r : CbRequest) (ch : Chans) : RunResult :=
  let code := getQ r qCode
  if code = [] then
    if ch.errCh.length < 1 then
      { status := some 400, outcome := some (.err .noCode), blocked := false,
        chans := { ch with errCh := ch.errCh ++ [.noCode] } }
    else
      { status := some 400, outcome := none, blocked := true, chans := ch }
  else
    let errMsg := getQ r qError
    if errMsg ≠ [] then
      let errDesc := getQ r qErrorDesc
      if ch.errCh.length < 1 then
        { status := some 400, outcome := some (.err (.oauth errMsg errDesc)),
          blocked := false,
          chans := { ch with errCh := ch.errCh ++ [.oauth errMsg errDesc] } }
      else
        { status := some 400, outcome := none, blocked := true, chans := ch }
    else
      if ch.codeCh.length < 1 then
        { status := some 200, outcome := some (.code code), blocked := false,
          chans := { ch with codeCh := ch.codeCh ++ [code] } }
      else
        { status := none, outcome := none, blocked := true, chans := ch }

/-- Handle a sequence of requests in order, threading the channel state. -/
def serveAll : List CbRequest → Chans → List RunResult
  | [], _ => []
  | r :: rs, ch =>
      let run := handleCallback r ch
      run :: serveAll rs run.chans

/-- Whether a run published an authorization code. -/
def publishedCode (run : RunResult) : Bool :=
  match run.outcome with
  | some (.code _) => true
  | _ => false

/-- Whether a run published an error outcome. -/
def publishedErr (run : RunResult) : Bool :=
  match run.outcome with
  | some (.err _) => true
  | _ => false

/-- The lifecycle state of a `CallbackServer` that matters to `Stop`: whether
`Start` assigned the embedded `http.Server` (it does so before attempting to
listen), whether the `sync.Once` has fired, and how many times a shutdown was
actually performed. -/
structure CallbackServer where
  port : Nat
  path : GoStr
  serverSet : Bool
  onceFired : Bool
  shutdowns : Nat
deriving Repr, DecidableEq

/-- `NewCallbackServer`: channels allocated, no embedded server yet. -/
def NewCallbackServer (port : Nat) (path : GoStr) : CallbackServer :=
  { port := port, path := path, serverSet := false, onceFired := false, shutdowns := 0 }

/-- `Start` assigns the embedded `http.Server` before the listen attempt, so
the server field is set whether or not the port was available; the result is
the mutated receiver together with the returned error. -/
def StartEffect (s : CallbackServer) (portAvailable : Bool) :
    CallbackServer × Except Unit Unit :=
  ({ s with serverSet := true }, if portAvailable then .ok () else .error ())

/-- The result of a `Stop` call: either a new server state or a runtime
panic (the nil-pointer dereference of `s.server.Shutdown` when `Start` never
assigned the server). -/
inductive StopResult
  | ok (s : CallbackServer)
  | panicked
deriving Repr, DecidableEq

/-- `Stop`: the `sync.Once` body runs only on the first call; it calls
`Shutdown` on the embedded server — a nil-pointer panic when `Start` was
never invoked — and waits for the serve goroutine. -/
def Stop (s : CallbackServer) : StopResult :=
  if s.onceFired then .ok s
  else if s.serverSet then
    .ok { s with onceFired := true, shutdowns := s.shutdowns + 1 }
  else .panicked

/-! ## Auxiliary definitions used by the verification statements -/

/-- The URL-safe unpadded alphabet a verifier or challenge may use. -/
def urlSafeAlphabet : List Char :=
  ("ABCDEFGHIJKLMNOPQRSTUVWXYZabcdefghijklmnopqrstuvwxyz0123456789-_" : String).data

/-- The SHA-256 digest of the text of a verifier, as a function on positions
(total because the digest always has 32 bytes). -/
def digestFn (s : GoStr) : Fin 32 → Byte :=
  fun i => (sha256 (strBytes s)).getD i.val (byte 0)

/-- A string of `a` and `b` characters encoding a sequence of 257 booleans;
used to exhibit more verifier texts than there are SHA-256 digests. -/
def bitsToStr (g : Fin 257 → Bool) : GoStr :=
  (List.ofFn g).map (fun b => if b then 'a' else 'b')

/-! # Theorems -/

/-- C3: `ValidateIDToken` reports `Expired` exactly when the expiration is
strictly before `now` (equality passes); otherwise `IssuedInFuture` exactly
when the issue instant is strictly after `now`; otherwise `AudienceMismatch`
exactly when the expected audience is nonempty and differs from the audience
claim; otherwise it succeeds — failures in the order expiry, issued-at,
audience. -/
theorem validateIDToken_check_order (claims : IDTokenClaims) (ea : GoStr) (now : Int) :
    (ValidateIDToken claims ea now = .error .expired ↔ claims.Expiration < now) ∧
    (¬ claims.Expiration < now →
      (ValidateIDToken claims ea now = .error .issuedInFuture ↔ claims.IssuedAt > now)) ∧
    (¬ claims.Expiration < now → ¬ claims.IssuedAt > now →
      (ValidateIDToken claims ea now = .error .audienceMismatch ↔
        (ea ≠ [] ∧ ea ≠ claims.Audience))) ∧
    (¬ claims.Expiration < now → ¬ claims.IssuedAt > now →
      ¬ (ea ≠ [] ∧ ea ≠ claims.Audience) →
      ValidateIDToken claims ea now = .ok ()) := by
  unfold ValidateIDToken
  by_cases h1 : claims.Expiration < now
  · simp [h1]
  · by_cases h2 : claims.IssuedAt > now
    · simp [h1, h2]
    · by_cases h3 : ea = []
      · simp [h1, h2, h3]
      · by_cases h4 : ea = claims.Audience
        · have haud : claims.Audience ≠ [] := fun hn => h3 (h4.trans hn)
          simp [h1, h2, h3, h4, haud]
        · by_cases haud : claims.Audience = []
          · simp [h1, h2, h3, h4, haud]
          · simp [h1, h2, h3, h4, haud, List.contains_cons]

/-- C3 witness: the four branches at concrete claims and instants. -/
theorem validateIDToken_check_order_witness :
    ValidateIDToken { Expiration := 5 } [] 10 = .error .expired ∧
    ValidateIDToken { Expiration := 10, IssuedAt := 20 } [] 10 = .error .issuedInFuture ∧
    ValidateIDToken { Expiration := 10, IssuedAt := 0, Audience := ("a" : String).data }
      (("b" : String).data) 10 = .error .audienceMismatch ∧
    ValidateIDToken { Expiration := 10, IssuedAt := 0, Audience := ("a" : String).data }
      (("a" : String).data) 10 = .ok () := by
  refine ⟨(validateIDToken_check_order _ _ _).1.mpr (by decide),
          ((validateIDToken_check_order _ _ _).2.1 (by decide)).mpr (by decide),
          ((validateIDToken_check_order _ _ _).2.2.1 (by decide) (by decide)).mpr (by decide),
          (validateIDToken_check_order _ _ _).2.2.2 (by decide) (by decide) (by decide)⟩

/-- C6: `CreateCodeChallenge` is a pure function of the verifier — computing
it twice yields the same value — and `VerifyCodeChallenge` accepts the
challenge derived from its own verifier. -/
theorem createCodeChallenge_deterministic (v : PKCECodeVerifier) :
    CreateCodeChallenge v = CreateCodeChallenge v ∧
    VerifyCodeChallenge v (CreateCodeChallenge v) = true :=
  ⟨rfl, by unfold VerifyCodeChallenge; exact beq_self_eq_true _⟩

/-- C9: the handler inspects `code` before `error` — a request carrying both
a nonempty code and a nonempty error responds 400, never publishes the code,
and (with room in the error channel) publishes the provider error with its
description; and an `oauth` error outcome is only ever published for a
request whose `code` parameter is nonempty. -/
theorem handleCallback_code_before_error (r : CbRequest) (ch : Chans)
    (hc : getQ r qCode ≠ []) (he : getQ r qError ≠ []) :
    ((handleCallback r ch).status = some 400) ∧
    (∀ c, (handleCallback r ch).outcome ≠ some (.code c)) ∧
    (ch.errCh = [] →
      (handleCallback r ch).outcome =
        some (.err (.oauth (getQ r qError) (getQ r qErrorDesc)))) ∧
    (∀ (r2 : CbRequest) (ch2 : Chans) (m d : GoStr),
      (handleCallback r2 ch2).outcome = some (.err (.oauth m d)) →
      getQ r2 qCode ≠ []) := by
  refine ⟨?_, ?_, ?_, ?_⟩
  · unfold handleCallback
    simp only [if_neg hc, if_pos he]
    split <;> rfl
  · intro c
    unfold handleCallback
    simp only [if_neg hc, if_pos he]
    split <;> simp
  · intro hech
    unfold handleCallback
    simp [if_neg hc, if_pos he, hech]
  · intro r2 ch2 m d hout
    intro hc2
    unfold handleCallback at hout
    rw [if_pos hc2] at hout
    split at hout <;> simp_all

/-- C9 witness: a request carrying both `code=abc` and `error=denied` on
fresh channels responds 400 and publishes the provider error. -/
theorem handleCallback_code_before_error_witness :
    (handleCallback ⟨[(qCode, ("abc" : String).data), (qError, ("denied" : String).data)]⟩
        ⟨[], []⟩).status = some 400 ∧
    (handleCallback ⟨[(qCode, ("abc" : String).data), (qError, ("denied" : String).data)]⟩
        ⟨[], []⟩).outcome = some (.err (.oauth (("denied" : String).data) [])) := by
  refine ⟨(handleCallback_code_before_error _ _ (by decide) (by decide)).1, ?_⟩
  have h := (handleCallback_code_before_error
    ⟨[(qCode, ("abc" : String).data), (qError, ("denied" : String).data)]⟩
    ⟨[], []⟩ (by decide) (by decide)).2.2.1 rfl
  rw [h]
  decide

/-- C2 counterexample: a callback request carrying `error=access_denied` with
`error_description=denied` and no `code` publishes the generic
no-authorization-code error, not the provider error the claim requires. -/
theorem handleCallback_error_only_counterexample :
    (handleCallback ⟨[(qError, ("access_denied" : String).data),
                      (qErrorDesc, ("denied" : String).data)]⟩ ⟨[], []⟩).outcome
      = some (.err .noCode) ∧
    some (Outcome.err CbErr.noCode) ≠
      some (Outcome.err (.oauth (("access_denied" : String).data)
        (("denied" : String).data))) := by
  exact ⟨by decide, by decide⟩

/-- C2 amended: a request with a nonempty `error` parameter and no `code`
responds with HTTP 400, but the outcome it delivers is the generic
no-authorization-code error — the provider error code and description are
not surfaced on this path. -/
theorem handleCallback_error_only (r : CbRequest) (ch : Chans)
    (he : getQ r qError ≠ []) (hc : getQ r qCode = []) :
    ((handleCallback r ch).status = some 400) ∧
    (ch.errCh = [] →
      (handleCallback r ch).outcome = some (.err .noCode)) := by
  refine ⟨?_, ?_⟩
  · unfold handleCallback
    simp only [if_pos hc]
    split <;> rfl
  · intro hech
    unfold handleCallback
    simp [if_pos hc, hech]

/-- C2 amended witness: the concrete error-only request on fresh channels. -/
theorem handleCallback_error_only_witness :
    (handleCallback ⟨[(qError, ("access_denied" : String).data)]⟩ ⟨[], []⟩).status
        = some 400 ∧
    (handleCallback ⟨[(qError, ("access_denied" : String).data)]⟩ ⟨[], []⟩).outcome
        = some (.err .noCode) := by
  have h := handleCallback_error_only
    ⟨[(qError, ("access_denied" : String).data)]⟩ ⟨[], []⟩ (by decide) (by decide)
  exact ⟨h.1, h.2 rfl⟩

/-- C1 counterexample: after a first code-bearing request is honored, a
second code-bearing request blocks in the channel send before writing any
HTTP response — it is not answered. -/
theorem handleCallback_second_request_not_answered :
    (handleCallback ⟨[(qCode, ("abc123" : String).data)]⟩ ⟨[], []⟩).outcome
        = some (.code (("abc123" : String).data)) ∧
    (handleCallback ⟨[(qCode, ("def456" : String).data)]⟩
        (handleCallback ⟨[(qCode, ("abc123" : String).data)]⟩ ⟨[], []⟩).chans).status
        = none ∧
    (handleCallback ⟨[(qCode, ("def456" : String).data)]⟩
        (handleCallback ⟨[(qCode, ("abc123" : String).data)]⟩ ⟨[], []⟩).chans).blocked
        = true := by
  exact ⟨by decide, by decide, by decide⟩

/-- Each handler run either leaves the code channel untouched without
publishing a code, or publishes into an empty code channel. -/
theorem handleCallback_codeCh_step (r : CbRequest) (ch : Chans) :
    ((handleCallback r ch).chans.codeCh = ch.codeCh ∧
      publishedCode (handleCallback r ch) = false) ∨
    (ch.codeCh.length = 0 ∧
      (handleCallback r ch).chans.codeCh = ch.codeCh ++ [getQ r qCode] ∧
      publishedCode (handleCallback r ch) = true) := by
  by_cases hc : getQ r qCode = []
  · by_cases hech : ch.errCh.length < 1 <;>
      simp [handleCallback, hc, hech, publishedCode]
  · by_cases he : getQ r qError = []
    · by_cases hlen : ch.codeCh.length < 1
      · right
        refine ⟨by omega, ?_, ?_⟩ <;>
          simp [handleCallback, hc, he, hlen, publishedCode]
      · left
        constructor <;> simp [handleCallback, hc, he, hlen, publishedCode]
    · by_cases hech : ch.errCh.length < 1 <;>
        simp [handleCallback, hc, he, hech, publishedCode]

/-- Each handler run either leaves the error channel untouched without
publishing an error, or publishes into an empty error channel. -/
theorem handleCallback_errCh_step (r : CbRequest) (ch : Chans) :
    ((handleCallback r ch).chans.errCh = ch.errCh ∧
      publishedErr (handleCallback r ch) = false) ∨
    (ch.errCh.length = 0 ∧ publishedErr (handleCallback r ch) = true ∧
      (handleCallback r ch).chans.errCh.length = ch.errCh.length + 1) := by
  by_cases hc : getQ r qCode = []
  · by_cases hech : ch.errCh.length < 1
    · right
      refine ⟨by omega, ?_, ?_⟩ <;>
        simp [handleCallback, hc, hech, publishedErr]
    · left
      constructor <;> simp [handleCallback, hc, hech, publishedErr]
  · by_cases he : getQ r qError = []
    · by_cases hlen : ch.codeCh.length < 1 <;>
        simp [handleCallback, hc, he, hlen, publishedErr]
    · by_cases hech : ch.errCh.length < 1
      · right
        refine ⟨by omega, ?_, ?_⟩ <;>
          simp [handleCallback, hc, he, hech, publishedErr]
      · left
        constructor <;> simp [handleCallback, hc, he, hech, publishedErr]

/-- Code publications over a request sequence are bounded by the free space
of the code channel. -/
theorem serveAll_code_bound :
    ∀ (reqs : List CbRequest) (ch : Chans), ch.codeCh.length ≤ 1 →
      (serveAll reqs ch).countP publishedCode + ch.codeCh.length ≤ 1 := by
  intro reqs
  induction reqs with
  | nil => intro ch h; simpa [serveAll] using h
  | cons r rs ih =>
    intro ch h
    rcases handleCallback_codeCh_step r ch with ⟨heq, hpub⟩ | ⟨h0, heq, hpub⟩
    · have := ih (handleCallback r ch).chans (by rw [heq]; exact h)
      rw [heq] at this
      simp [serveAll, List.countP_cons, hpub]
      omega
    · have hlen : (handleCallback r ch).chans.codeCh.length = 1 := by
        rw [heq]
        simp [h0]
      have := ih (handleCallback r ch).chans (by rw [hlen])
      rw [hlen] at this
      simp [serveAll, List.countP_cons, hpub]
      omega

/-- Error publications over a request sequence are bounded by the free space
of the error channel. -/
theorem serveAll_err_bound :
    ∀ (reqs : List CbRequest) (ch : Chans), ch.errCh.length ≤ 1 →
      (serveAll reqs ch).countP publishedErr + ch.errCh.length ≤ 1 := by
  intro reqs
  induction reqs with
  | nil => intro ch h; simpa [serveAll] using h
  | cons r rs ih =>
    intro ch h
    rcases handleCallback_errCh_step r ch with ⟨heq, hpub⟩ | ⟨h0, hpub, hlen⟩
    · have := ih (handleCallback r ch).chans (by rw [heq]; exact h)
      rw [heq] at this
      simp [serveAll, List.countP_cons, hpub]
      omega
    · have := ih (handleCallback r ch).chans (by omega)
      simp [serveAll, List.countP_cons, hpub]
      omega

/-- C1 amended: with the handler goroutines running to completion in arrival
order and no concurrent receiver, at most one authorization-code outcome and
at most one error outcome are ever published across any request sequence of
one attempt (each channel has capacity one), so the caller blocked in
`WaitForCode` can receive at most one outcome; however a code-bearing
request arriving while the code channel is already full blocks in the send
before writing any HTTP response — it publishes nothing but is not answered
either. -/
theorem serveAll_at_most_once (reqs : List CbRequest) (r : CbRequest) (ch : Chans)
    (hfull : 1 ≤ ch.codeCh.length)
    (hc : getQ r qCode ≠ []) (he : getQ r qError = []) :
    ((serveAll reqs ⟨[], []⟩).countP publishedCode ≤ 1) ∧
    ((serveAll reqs ⟨[], []⟩).countP publishedErr ≤ 1) ∧
    ((handleCallback r ch).status = none ∧ (handleCallback r ch).outcome = none ∧
      (handleCallback r ch).blocked = true ∧ (handleCallback r ch).chans = ch) := by
  refine ⟨by simpa using serveAll_code_bound reqs ⟨[], []⟩ (by simp),
          by simpa using serveAll_err_bound reqs ⟨[], []⟩ (by simp), ?_⟩
  unfold handleCallback
  rw [if_neg hc]
  simp only [he, ne_eq, not_true_eq_false, if_false]
  rw [if_neg (by omega : ¬ ch.codeCh.length < 1)]
  exact ⟨rfl, rfl, rfl, rfl⟩

/-- C1 amended witness: two code-bearing requests from a fresh server — one
publication in total, and the duplicate against a full channel is blocked
with no response. -/
theorem serveAll_at_most_once_witness :
    ((serveAll [⟨[(qCode, ("a" : String).data)]⟩, ⟨[(qCode, ("b" : String).data)]⟩]
        ⟨[], []⟩).countP publishedCode ≤ 1) ∧
    (handleCallback ⟨[(qCode, ("b" : String).data)]⟩
        ⟨[("a" : String).data], []⟩).status = none := by
  have h := serveAll_at_most_once
    [⟨[(qCode, ("a" : String).data)]⟩, ⟨[(qCode, ("b" : String).data)]⟩]
    ⟨[(qCode, ("b" : String).data)]⟩ ⟨[("a" : String).data], []⟩
    (by decide) (by decide) (by decide)
  exact ⟨h.1, h.2.2.1⟩

/-- C8 counterexample: `Stop` on a server whose `Start` was never invoked
dereferences the nil embedded `http.Server` and panics. -/
theorem stop_before_start_panics :
    Stop (NewCallbackServer 8080 (("/callback" : String).data)) = .panicked := by
  decide

/-- C8 amended: once `Start` has run — successfully or not, since it assigns
the embedded server before attempting to listen — `Stop` performs the
shutdown exactly once and calling it again is a safe no-op; and any `Stop`
call that returns leaves a state on which further `Stop` calls are no-ops. -/
theorem stop_idempotent_after_start (port : Nat) (path : GoStr) (avail : Bool) :
    (Stop (StartEffect (NewCallbackServer port path) avail).1 =
      .ok { (StartEffect (NewCallbackServer port path) avail).1 with
            onceFired := true, shutdowns := 1 } ∧
     Stop { (StartEffect (NewCallbackServer port path) avail).1 with
            onceFired := true, shutdowns := 1 } =
      .ok { (StartEffect (NewCallbackServer port path) avail).1 with
            onceFired := true, shutdowns := 1 }) ∧
    (∀ s t : CallbackServer, Stop s = .ok t → Stop t = .ok t) := by
  constructor
  · constructor
    · simp [Stop, StartEffect, NewCallbackServer]
    · simp [Stop, StartEffect, NewCallbackServer]
  · intro s t hst
    unfold Stop at hst ⊢
    by_cases h1 : s.onceFired
    · rw [if_pos h1] at hst
      cases hst
      rw [if_pos h1]
    · rw [if_neg h1] at hst
      by_cases h2 : s.serverSet
      · rw [if_pos h2] at hst
        cases hst
        simp
      · rw [if_neg h2] at hst
        cases hst

/-- C8 amended witness: the failed-start pipeline at a concrete port, and
idempotence applied to its result. -/
theorem stop_idempotent_after_start_witness :
    Stop (StartEffect (NewCallbackServer 8080 (("/cb" : String).data)) false).1 =
      .ok { (StartEffect (NewCallbackServer 8080 (("/cb" : String).data)) false).1 with
            onceFired := true, shutdowns := 1 } ∧
    Stop { port := 8080, path := ("/cb" : String).data, serverSet := true,
           onceFired := true, shutdowns := 1 } =
      .ok { port := 8080, path := ("/cb" : String).data, serverSet := true,
            onceFired := true, shutdowns := 1 } := by
  refine ⟨(stop_idempotent_after_start 8080 (("/cb" : String).data) false).1.1, ?_⟩
  exact (stop_idempotent_after_start 8080 (("/cb" : String).data) false).2
    { port := 8080, path := ("/cb" : String).data, serverSet := true,
      onceFired := false, shutdowns := 0 }
    _ (by decide)

set_option maxRecDepth 8000 in
/-- C4: `ParseIDToken` rejects any input that does not split into exactly
three dot-separated segments, reporting the observed segment count — in
particular the two-segment input `abc.def` — and succeeds on a well-formed
token whose payload encodes the example claims, returning `Subject = "123"`. -/
theorem parseIDToken_three_segments :
    (∀ s : GoStr, (goSplit '.' s).length ≠ 3 →
        ParseIDToken s = .error (.invalidFormat (goSplit '.' s).length)) ∧
    ParseIDToken (("abc.def" : String).data) = .error (.invalidFormat 2) ∧
    (Except.toOption (ParseIDToken (("abc.eyJpc3MiOiJodHRwczovL2V4YW1wbGUuY29tIiwic3ViIjoiMTIzIiwiYXVkIjoiY2xpZW50MSIsImV4cCI6OTk5OTk5OTk5OSwiaWF0IjoxMDAwMDAwMDAwfQ.sig" : String).data))).map
        IDTokenClaims.Subject = some (("123" : String).data) := by
  refine ⟨?_, by decide, by decide⟩
  intro s h
  unfold ParseIDToken
  rw [if_pos h]

/-- C4 witness: a dotless input has one segment and is rejected with that
count. -/
theorem parseIDToken_three_segments_witness :
    ParseIDToken (("x" : String).data) = .error (.invalidFormat 1) := by
  have h := parseIDToken_three_segments.1 (("x" : String).data) (by decide)
  rw [h]
  decide

/-- Splitting a separator-free string yields that string as the only part. -/
theorem goSplit_eq_singleton (sep : Char) (a : List Char) (h : sep ∉ a) :
    goSplit sep a = [a] := by
  induction a with
  | nil => rfl
  | cons c cs ih =>
    have hc : c ≠ sep := fun hh => h (hh ▸ List.mem_cons_self c cs)
    have hcs : sep ∉ cs := fun hh => h (List.mem_cons_of_mem c hh)
    simp [goSplit, if_neg hc, ih hcs]

/-- A separator after a separator-free prefix contributes that prefix as the
first part. -/
theorem goSplit_append (sep : Char) (a r : List Char) (h : sep ∉ a) :
    goSplit sep (a ++ sep :: r) = a :: goSplit sep r := by
  induction a with
  | nil => simp [goSplit]
  | cons c cs ih =>
    have hc : c ≠ sep := fun hh => h (hh ▸ List.mem_cons_self c cs)
    have hcs : sep ∉ cs := fun hh => h (List.mem_cons_of_mem c hh)
    simp [goSplit, if_neg hc, ih hcs]

/-- C10: `base64URLDecode` restores padding from the length modulo 4 — two
missing characters for 2, one for 3 — before the standard decode, and a
three-segment token whose payload length is 1 mod 4 makes `ParseIDToken`
fail with the invalid-length error, issued before any decoding. -/
theorem base64URLDecode_padding :
    (∀ s : GoStr, s.length % 4 = 2 →
        base64URLDecode s = b64DecodeGroups ((s ++ ['=', '=']).map stdCharOfURL)) ∧
    (∀ s : GoStr, s.length % 4 = 3 →
        base64URLDecode s = b64DecodeGroups ((s ++ ['=']).map stdCharOfURL)) ∧
    (∀ hdr payload sig : GoStr, '.' ∉ hdr → '.' ∉ payload → '.' ∉ sig →
        payload.length % 4 = 1 →
        ParseIDToken (hdr ++ '.' :: (payload ++ '.' :: sig)) =
          .error (.decodeFailed .invalidLength)) := by
  refine ⟨?_, ?_, ?_⟩
  · intro s h
    unfold base64URLDecode
    rw [h]
  · intro s h
    unfold base64URLDecode
    rw [h]
  · intro hdr payload sig h1 h2 h3 hlen
    have hsplit : goSplit '.' (hdr ++ '.' :: (payload ++ '.' :: sig)) =
        [hdr, payload, sig] := by
      rw [goSplit_append '.' hdr _ h1, goSplit_append '.' payload _ h2,
          goSplit_eq_singleton '.' sig h3]
    have hdec : base64URLDecode payload = .error .invalidLength := by
      unfold base64URLDecode
      rw [hlen]
    simp only [ParseIDToken, hsplit]
    simp [hdec]

/-- C10 witness: the two padded branches at concrete inputs and the
invalid-length rejection of a five-character payload. -/
theorem base64URLDecode_padding_witness :
    base64URLDecode (("ab" : String).data)
      = b64DecodeGroups (((("ab" : String).data) ++ ['=', '=']).map stdCharOfURL) ∧
    base64URLDecode (("abc" : String).data)
      = b64DecodeGroups (((("abc" : String).data) ++ ['=']).map stdCharOfURL) ∧
    ParseIDToken (("abc" : String).data ++ '.' ::
        (("abcde" : String).data ++ '.' :: ("xyz" : String).data))
      = .error (.decodeFailed .invalidLength) :=
  ⟨base64URLDecode_padding.1 _ (by decide),
   base64URLDecode_padding.2.1 _ (by decide),
   base64URLDecode_padding.2.2 _ _ _ (by decide) (by decide) (by decide) (by decide)⟩

/-- Every six-bit index maps into the standard alphabet. -/
theorem sextetChar_mem (k : Nat) : sextetChar k ∈ stdAlphabet := by
  unfold sextetChar
  by_cases h : k < stdAlphabet.length
  · rw [List.getD_eq_getElem _ _ h]
    exact List.getElem_mem h
  · rw [List.getD_eq_default _ _ (Nat.le_of_not_lt h)]
    decide

/-- The URL-safe replacement sends every standard-alphabet character into the
URL-safe alphabet and never to a padding character. -/
theorem std_urlSafe :
    ∀ c ∈ stdAlphabet, urlSafeChar c ∈ urlSafeAlphabet ∧ urlSafeChar c ≠ '=' := by
  decide

/-- Stripping keeps a non-padding head. -/
theorem stripEq_cons_ne (c : Char) (l : List Char) (h : c ≠ '=') :
    stripEq (c :: l) = c :: stripEq l := by
  simp [stripEq, h]

/-- Stripping drops a padding head. -/
theorem stripEq_cons_eq (l : List Char) : stripEq ('=' :: l) = stripEq l := by
  simp [stripEq]

/-- The stripped URL-safe encoding of `n` bytes has length
`n / 3 * 4` plus 0, 2 or 3 tail characters according to `n % 3`. -/
theorem b64URLEncodeNoPad_length : ∀ bs : List Byte,
    (b64URLEncodeNoPad bs).length =
      bs.length / 3 * 4 +
        (if bs.length % 3 = 0 then 0 else if bs.length % 3 = 1 then 2 else 3)
  | b1 :: b2 :: b3 :: rest => by
    have ih := b64URLEncodeNoPad_length rest
    have h1 := (std_urlSafe _ (sextetChar_mem (b1.val / 4))).2
    have h2 := (std_urlSafe _ (sextetChar_mem (b1.val % 4 * 16 + b2.val / 16))).2
    have h3 := (std_urlSafe _ (sextetChar_mem (b2.val % 16 * 4 + b3.val / 64))).2
    have h4 := (std_urlSafe _ (sextetChar_mem (b3.val % 64))).2
    simp only [b64URLEncodeNoPad, b64Encode, List.map_cons]
    rw [stripEq_cons_ne _ _ h1, stripEq_cons_ne _ _ h2, stripEq_cons_ne _ _ h3,
        stripEq_cons_ne _ _ h4]
    have hfold : stripEq (List.map urlSafeChar (b64Encode rest)) =
        b64URLEncodeNoPad rest := rfl
    simp only [List.length_cons, hfold, ih]
    have hm : (rest.length + 1 + 1 + 1) % 3 = rest.length % 3 := by omega
    have hd : (rest.length + 1 + 1 + 1) / 3 = rest.length / 3 + 1 := by omega
    simp only [hm, hd]
    rcases (by omega : rest.length % 3 = 0 ∨ rest.length % 3 = 1 ∨ rest.length % 3 = 2)
      with h | h | h <;> simp [h] <;> omega
  | [b1, b2] => by
    have h1 := (std_urlSafe _ (sextetChar_mem (b1.val / 4))).2
    have h2 := (std_urlSafe _ (sextetChar_mem (b1.val % 4 * 16 + b2.val / 16))).2
    have h3 := (std_urlSafe _ (sextetChar_mem (b2.val % 16 * 4))).2
    have he : urlSafeChar '=' = '=' := by decide
    simp only [b64URLEncodeNoPad, b64Encode, List.map_cons, List.map_nil, he]
    rw [stripEq_cons_ne _ _ h1, stripEq_cons_ne _ _ h2, stripEq_cons_ne _ _ h3,
        stripEq_cons_eq]
    simp [stripEq]
  | [b1] => by
    have h1 := (std_urlSafe _ (sextetChar_mem (b1.val / 4))).2
    have h2 := (std_urlSafe _ (sextetChar_mem (b1.val % 4 * 16))).2
    have he : urlSafeChar '=' = '=' := by decide
    simp only [b64URLEncodeNoPad, b64Encode, List.map_cons, List.map_nil, he]
    rw [stripEq_cons_ne _ _ h1, stripEq_cons_ne _ _ h2, stripEq_cons_eq, stripEq_cons_eq]
    simp [stripEq]
  | [] => by simp [b64URLEncodeNoPad, b64Encode, stripEq]

/-- Every character the padded encoder emits is in the standard alphabet or
is the padding character. -/
theorem b64Encode_chars : ∀ bs : List Byte, ∀ c ∈ b64Encode bs, c ∈ stdAlphabet ∨ c = '='
  | b1 :: b2 :: b3 :: rest => by
    intro c hc
    simp only [b64Encode, List.mem_cons] at hc
    rcases hc with h | h | h | h | h
    · exact Or.inl (h ▸ sextetChar_mem _)
    · exact Or.inl (h ▸ sextetChar_mem _)
    · exact Or.inl (h ▸ sextetChar_mem _)
    · exact Or.inl (h ▸ sextetChar_mem _)
    · exact b64Encode_chars rest c h
  | [b1, b2] => by
    intro c hc
    simp only [b64Encode, List.mem_cons, List.not_mem_nil, or_false] at hc
    rcases hc with h | h | h | h
    · exact Or.inl (h ▸ sextetChar_mem _)
    · exact Or.inl (h ▸ sextetChar_mem _)
    · exact Or.inl (h ▸ sextetChar_mem _)
    · exact Or.inr h
  | [b1] => by
    intro c hc
    simp only [b64Encode, List.mem_cons, List.not_mem_nil, or_false] at hc
    rcases hc with h | h | h | h
    · exact Or.inl (h ▸ sextetChar_mem _)
    · exact Or.inl (h ▸ sextetChar_mem _)
    · exact Or.inr h
    · exact Or.inr h
  | [] => by intro c hc; simp [b64Encode] at hc

/-- Every character of an encoded verifier or challenge lies in the URL-safe
unpadded alphabet. -/
theorem b64URLEncodeNoPad_mem (bs : List Byte) :
    ∀ c ∈ b64URLEncodeNoPad bs, c ∈ urlSafeAlphabet := by
  intro c hc
  unfold b64URLEncodeNoPad stripEq at hc
  have hne : c ≠ '=' := by
    have := List.of_mem_filter hc
    simpa using this
  have hmem : c ∈ (b64Encode bs).map urlSafeChar := List.mem_of_mem_filter hc
  obtain ⟨c0, hc0, hmap⟩ := List.mem_map.mp hmem
  rcases b64Encode_chars bs c0 hc0 with h | h
  · exact hmap ▸ (std_urlSafe c0 h).1
  · subst h
    have hc2 : c = '=' := by
      rw [← hmap]
      decide
    exact absurd hc2 hne

/-- C5: for every successful 32-byte draw from the random source, the
verifier is produced without error, its length lies within [43, 128]
(it is exactly 43), and it uses only the URL-safe unpadded alphabet;
`GenerateCodeVerifier` fails exactly when the entropy source fails,
propagating that error. -/
theorem generateCodeVerifier_props (ε : Type) (e : ε) (bs : List Byte)
    (h : bs.length = 32) :
    (GenerateCodeVerifier (Except.ok bs : Except ε (List Byte))
        = .ok (b64URLEncodeNoPad bs)) ∧
    43 ≤ (b64URLEncodeNoPad bs).length ∧
    (b64URLEncodeNoPad bs).length ≤ 128 ∧
    (∀ c ∈ b64URLEncodeNoPad bs, c ∈ urlSafeAlphabet) ∧
    (GenerateCodeVerifier (Except.error e : Except ε (List Byte)) = .error e) := by
  have hlen := b64URLEncodeNoPad_length bs
  rw [h] at hlen
  norm_num at hlen
  exact ⟨rfl, by omega, by omega, b64URLEncodeNoPad_mem bs, rfl⟩

/-- C5 witness: the all-zero 32-byte draw. -/
theorem generateCodeVerifier_props_witness :
    (GenerateCodeVerifier (Except.ok (List.replicate 32 (byte 0)) : Except Unit (List Byte))
        = .ok (b64URLEncodeNoPad (List.replicate 32 (byte 0)))) ∧
    43 ≤ (b64URLEncodeNoPad (List.replicate 32 (byte 0))).length := by
  have h := generateCodeVerifier_props Unit () (List.replicate 32 (byte 0)) (by decide)
  exact ⟨h.1, h.2.1⟩

/-- A SHA-256 digest always consists of 32 bytes. -/
theorem sha256_length (m : List Byte) : (sha256 m).length = 32 := by
  simp [sha256, digestOfHash, wordBytes]

/-- Equal digest functions force equal digest lists. -/
theorem digest_eq_of_digestFn_eq (s1 s2 : GoStr) (h : digestFn s1 = digestFn s2) :
    sha256 (strBytes s1) = sha256 (strBytes s2) := by
  apply List.ext_getElem (by rw [sha256_length, sha256_length])
  intro i h1 h2
  have hi : i < 32 := by rw [sha256_length] at h1; exact h1
  have hfi := congrFun h ⟨i, hi⟩
  simp only [digestFn] at hfi
  rwa [List.getD_eq_getElem _ _ h1, List.getD_eq_getElem _ _ h2] at hfi

/-- Distinct boolean sequences encode to distinct strings. -/
theorem bitsToStr_injective : Function.Injective bitsToStr := by
  intro g1 g2 h
  unfold bitsToStr at h
  have hinj : Function.Injective (fun b : Bool => if b then 'a' else 'b') := by
    intro a b hab
    cases a <;> cases b
    · rfl
    · exact absurd hab (by decide)
    · exact absurd hab (by decide)
    · rfl
  have hofn := List.map_injective_iff.mpr hinj h
  exact List.ofFn_injective hofn

/-- C7 counterexample: the claim is refuted by counting — the challenge of a
verifier is determined by its 32-byte SHA-256 digest, of which there are at
most `2 ^ 256`, while there are `2 ^ 257` verifier texts of length 257 over
two letters, so two distinct verifiers must share a challenge and verify
against each other. -/
theorem verifyCodeChallenge_collision_exists :
    ¬ (∀ v1 v2 : PKCECodeVerifier, v1 ≠ v2 →
        VerifyCodeChallenge v1 (CreateCodeChallenge v2) = false) := by
  intro hall
  have hcard : Fintype.card (Fin 32 → Byte) < Fintype.card (Fin 257 → Bool) := by
    rw [Fintype.card_fun, Fintype.card_fun, Fintype.card_fin, Fintype.card_fin,
        Fintype.card_bool, Fintype.card_fin]
    calc (256 : Nat) ^ 32 = (2 ^ 8) ^ 32 := by norm_num
      _ = 2 ^ 256 := by
          rw [← pow_mul]
      _ < 2 ^ 257 := by
          exact Nat.pow_lt_pow_right (by norm_num) (by norm_num)
  obtain ⟨g1, g2, hne, heq⟩ :=
    Fintype.exists_ne_map_eq_of_card_lt
      (fun g : Fin 257 → Bool => digestFn (bitsToStr g)) hcard
  have hsha := digest_eq_of_digestFn_eq _ _ heq
  have hchal : CreateCodeChallenge (bitsToStr g1) = CreateCodeChallenge (bitsToStr g2) := by
    unfold CreateCodeChallenge
    rw [hsha]
  have hvne : bitsToStr g1 ≠ bitsToStr g2 := fun hc => hne (bitsToStr_injective hc)
  have hfalse := hall _ _ hvne
  rw [VerifyCodeChallenge, hchal] at hfalse
  simp at hfalse

/-- C7 amended: verification of a cross-derived challenge fails exactly when
the two verifiers derive different challenges — distinctness of the
verifiers alone cannot guarantee it, since SHA-256 maps unboundedly many
verifier texts into finitely many digests. -/
theorem verifyCodeChallenge_false_iff (v1 v2 : PKCECodeVerifier) :
    VerifyCodeChallenge v1 (CreateCodeChallenge v2) = false ↔
      CreateCodeChallenge v1 ≠ CreateCodeChallenge v2 := by
  unfold VerifyCodeChallenge
  exact beq_eq_false_iff_ne

end OAuth2Spec
